import Mathlib

/-!
Shallow embedding of the metaprog build pipeline and its filesystem cache
(`src/metaprog.ts`, `src/cache.ts`, `src/utils.ts`), together with proofs
about the cache's consistency and the test-driven repair loop.

Modelling conventions:
* source/code text is `List Char`; descriptions are `String`;
* artifact ids are `Nat`, allocated from a monotone counter (`nanoid` is an
  opaque collision-free token allocator);
* the filesystem is a record: the serialized index file (missing, invalid
  JSON, or a parsed list of records), the generated bodies directory as an
  association list (a later write to the same id shadows the earlier one,
  mirroring file overwrite), and the allocator counter;
* the external model is an oracle carried by the builder: the raw text of
  the one `generateFunction` response and of each successive `fixFunction`
  response;
* fallible operations return `Except Err`; `async` sequencing is explicit
  state passing (the pipeline is single-threaded, suspension points notwithstanding).
-/

namespace Metaprog

/-- One record of the serialized cache index (`MetaprogCacheItem`). -/
structure MetaprogCacheItem where
  id : Nat
  description : String
deriving DecidableEq, Repr

/-- The on-disk state of the index file read by `loadCache`: absent,
present but not valid JSON, or a parsed list of records. -/
inductive CacheFileState where
  | missing
  | invalid
  | content (items : List MetaprogCacheItem)
deriving DecidableEq, Repr

/-- The store visible to a `FileSystemCacheHandler`: the index file, the
generated-bodies directory, and the id-allocator counter. -/
structure FS where
  cacheFile : CacheFileState
  files : List (Nat × List Char)
  nextId : Nat
deriving DecidableEq, Repr

/-- Errors surfaced by the embedded operations. -/
inductive Err where
  /-- `throw new Error('Test Failed.')` in `runTest`. -/
  | testFailed
  /-- a failing dynamic `import` in `loadFunction`. -/
  | loadError
  /-- `throw new Error('Function not found in cache')` in `fetchCode`. -/
  | notFound
  /-- an `fs.readFile` failure on a body file. -/
  | ioError
deriving DecidableEq, Repr

/-- Result of `JSON.parse` on the index file: a read failure (absent file)
or a parse failure both end in the `catch` branch. -/
def CacheFileState.parse : CacheFileState → List MetaprogCacheItem
  | .content items => items
  | _ => []

/-- `loadCache`: read and parse the index file; any read or parse failure
is caught and yields the empty index. -/
def loadCache (fs : FS) : List MetaprogCacheItem :=
  fs.cacheFile.parse

/-- Read the body file `<generatedPath>/<id>.ts`, if present. -/
def lookupBody (fs : FS) (id : Nat) : Option (List Char) :=
  (fs.files.find? (fun p => p.1 == id)).map (fun p => p.2)

/-- Primitive `fs.writeFile` on the index file. -/
def writeIndex (items : List MetaprogCacheItem) (fs : FS) : FS :=
  { fs with cacheFile := .content items }

/-- Primitive `fs.writeFile` on a body file (overwrite by shadowing). -/
def writeBody (id : Nat) (code : List Char) (fs : FS) : FS :=
  { fs with files := (id, code) :: fs.files }

/-- `nanoid()`: allocate a fresh id. -/
def allocId (fs : FS) : Nat × FS :=
  (fs.nextId, { fs with nextId := fs.nextId + 1 })

/-- `checkCache`: id of the first index record with this description. -/
def checkCache (functionDescription : String) (fs : FS) : Option Nat :=
  ((loadCache fs).find? (fun item => item.description == functionDescription)).map
    (fun item => item.id)

/-- `loadFunctionCache`: the first index record with this description. -/
def loadFunctionCache (description : String) (fs : FS) : Option MetaprogCacheItem :=
  (loadCache fs).find? (fun item => item.description == description)

/-- `replaceFunction`, as the ordered list of store states reached after
each primitive write: the index is rewritten first (all records whose id is
the replaced one are filtered out and a record with a fresh id is pushed),
and the new body file is written second.  Returns the new id and the trace;
the final state is the last element of the trace. -/
def replaceFunctionTrace (oldId : Nat) (functionCode : List Char) (description : String)
    (fs : FS) : Nat × List FS :=
  let cache := loadCache fs
  let newCache := cache.filter (fun item => item.id != oldId)
  let (newId, fs0) := allocId fs
  let fs1 := writeIndex (newCache ++ [⟨newId, description⟩]) fs0
  let fs2 := writeBody newId functionCode fs1
  (newId, [fs1, fs2])

/-- `replaceFunction`: new id and final store state. -/
def replaceFunction (oldId : Nat) (functionCode : List Char) (description : String)
    (fs : FS) : Nat × FS :=
  let (newId, states) := replaceFunctionTrace oldId functionCode description fs
  (newId, states.getLastD fs)

/-- `writeFunction`, as the ordered list of store states after each
primitive write: the body file is written first, the index (re-read, with
the new record pushed) second.  `idOpt = none` models the defaulted
`id = nanoid()` parameter. -/
def writeFunctionTrace (functionCode : List Char) (description : String)
    (idOpt : Option Nat) (fs : FS) : Nat × List FS :=
  let (id, fs0) :=
    match idOpt with
    | some id => (id, fs)
    | none => allocId fs
  let fs1 := writeBody id functionCode fs0
  let fs2 := writeIndex (loadCache fs1 ++ [⟨id, description⟩]) fs1
  (id, [fs1, fs2])

/-- `writeFunction`: id and final store state. -/
def writeFunction (functionCode : List Char) (description : String)
    (idOpt : Option Nat) (fs : FS) : Nat × FS :=
  let (id, states) := writeFunctionTrace functionCode description idOpt fs
  (id, states.getLastD fs)

/-- `loadFunction`: dynamic import of the body file; the loaded callable is
identified with its source text. -/
def loadFunction (id : Nat) (fs : FS) : Except Err (List Char) :=
  match lookupBody fs id with
  | some code => .ok code
  | none => .error .loadError

/-- `fetchCode`: find the first index record for the description (throwing
`notFound` when there is none) and read its body file. -/
def fetchCode (description : String) (fs : FS) : Except Err (List Char) :=
  match (loadCache fs).find? (fun item => item.description == description) with
  | none => .error .notFound
  | some functionCache =>
    match lookupBody fs functionCache.id with
    | some code => .ok code
    | none => .error .ioError

/-- `clearCache`: remove the index file and the generated directory. -/
def clearCache (fs : FS) : FS :=
  { cacheFile := .missing, files := [], nextId := fs.nextId }

/-- Every id referenced by the index has a persisted body. -/
def indexBacked (fs : FS) : Bool :=
  (loadCache fs).all (fun item => (lookupBody fs item.id).isSome)

/-- Number of index records carrying a given description. -/
def entriesFor (description : String) (fs : FS) : Nat :=
  ((loadCache fs).filter (fun item => item.description == description)).length

/-! ### Fence stripping (`postProcessFunctionCode`) -/

/-- One global literal replace-with-empty pass (`String.replace(/lit/g, '')`):
scan left to right; at a match, delete it and resume after it. `fuel`
bounds the recursion and is always instantiated with the text length. -/
def stripAllFuel (pat : List Char) : Nat → List Char → List Char
  | _, [] => []
  | 0, s => s
  | n + 1, c :: rest =>
    if pat ≠ [] ∧ pat.isPrefixOf (c :: rest) then
      stripAllFuel pat n ((c :: rest).drop pat.length)
    else
      c :: stripAllFuel pat n rest

/-- Delete every occurrence of `pat` from `s`, left to right. -/
def stripAll (pat s : List Char) : List Char :=
  stripAllFuel pat s.length s

/-- `postProcessFunctionCode`: delete every occurrence of the literal
"```typescript", then every remaining occurrence of the literal "```". -/
def postProcessFunctionCode (functionCode : List Char) : List Char :=
  stripAll ("```".toList) (stripAll ("```typescript".toList) functionCode)

/-! ### The build pipeline (`MetaprogFunctionBuilder`) -/

/-- The builder together with the oracle for the external model:
`genOutput` is the raw `generateFunction` response, `fixOutput k` the raw
response to the `k`-th `fixFunction` call. -/
structure Builder where
  description : String
  testCases : List (List Char → Bool)
  genOutput : List Char
  fixOutput : Nat → List Char

/-- Pipeline state: the store plus counters of model invocations. -/
structure PState where
  fs : FS
  genCount : Nat
  fixCount : Nat
deriving DecidableEq, Repr

/-- `retry` from `utils.ts`: attempt `fn`; on failure, while `retries > 1`,
run `beforeRetry` on the error and recurse with `retries - 1`; a failure of
`beforeRetry` itself propagates. -/
def retry {σ α : Type} (fn : σ → Except Err α × σ)
    (beforeRetry : Err → σ → Except Err σ) : Nat → σ → Except Err α × σ
  | retries + 2, s =>
    match fn s with
    | (.ok a, s') => (.ok a, s')
    | (.error e, s') =>
      match beforeRetry e s' with
      | .ok s'' => retry fn beforeRetry (retries + 1) s''
      | .error e' => (.error e', s')
  | _, s => fn s

/-- `generateFunction`: invoke the model and strip fences. -/
def generateFunction (b : Builder) : List Char :=
  postProcessFunctionCode b.genOutput

/-- `fixFunction`: fetch the current source for the description, invoke the
model's repair prompt, strip fences, then `replaceFunction` on the id found
by `loadFunctionCache` (or `writeFunction` if no record exists). -/
def fixFunction (b : Builder) (st : PState) : Except Err (Nat × PState) :=
  match fetchCode b.description st.fs with
  | .error e => .error e
  | .ok _existingFunctionCode =>
    let raw := b.fixOutput st.fixCount
    let functionCode := postProcessFunctionCode raw
    let st1 : PState := { st with fixCount := st.fixCount + 1 }
    match loadFunctionCache b.description st1.fs with
    | some functionCache =>
      let (newId, fs') := replaceFunction functionCache.id functionCode b.description st1.fs
      .ok (newId, { st1 with fs := fs' })
    | none =>
      let (newId, fs') := writeFunction functionCode b.description none st1.fs
      .ok (newId, { st1 with fs := fs' })

/-- The `fn` closure passed by `runTest` to `retry`: load the function
under test from the current `functionId` (the second component of the
closure state), apply the test callback, and fail on `false`. -/
def runTestAttempt (testCallback : List Char → Bool) :
    PState × Nat → Except Err Nat × (PState × Nat) := fun s =>
  match loadFunction s.2 s.1.fs with
  | .ok functionUnderTest =>
    if testCallback functionUnderTest then (.ok s.2, s)
    else (.error .testFailed, s)
  | .error e => (.error e, s)

/-- The `beforeRetry` closure passed by `runTest` to `retry`: call
`fixFunction` and rebind the mutable `functionId` to the repaired id. -/
def runTestRepair (b : Builder) : Err → PState × Nat → Except Err (PState × Nat) :=
  fun _ s =>
    match fixFunction b s.1 with
    | .ok (newId, st') => .ok (st', newId)
    | .error e => .error e

/-- `runTest`: under `retry` (default bound 3), attempt the test and
repair between attempts; resolves to the id that passed. -/
def runTest (b : Builder) (testCallback : List Char → Bool) (functionId : Nat)
    (st : PState) : Except Err Nat × PState :=
  let (r, s') := retry (runTestAttempt testCallback) (runTestRepair b) 3 (st, functionId)
  (r, s'.1)

/-- The loop body of `runAllTests`, with the mutable `currentFunctionId`
made explicit: each test starts from the id on which the previous one
ended. -/
def runTestsFrom (b : Builder) : List (List Char → Bool) → Nat → PState →
    Except Err Nat × PState
  | [], currentFunctionId, st => (.ok currentFunctionId, st)
  | testCase :: rest, currentFunctionId, st =>
    match runTest b testCase currentFunctionId st with
    | (.ok newId, st') => runTestsFrom b rest newId st'
    | (.error e, st') => (.error e, st')

/-- `runAllTests`: run every declared test, discarding the final id. -/
def runAllTests (b : Builder) (functionId : Nat) (st : PState) :
    Except Err Unit × PState :=
  let (r, st') := runTestsFrom b b.testCases functionId st
  (r.map (fun _ => ()), st')

/-- `build`: cache check (hit loads immediately, skipping tests); on a miss
generate, persist, run all tests, then load — note: load of
`createdFunctionId`, the id from before any repair. -/
def build (b : Builder) (st : PState) : Except Err (List Char) × PState :=
  match checkCache b.description st.fs with
  | some cachedFunctionId => (loadFunction cachedFunctionId st.fs, st)
  | none =>
    let functionCode := generateFunction b
    let st0 : PState := { st with genCount := st.genCount + 1 }
    let (createdFunctionId, fs1) := writeFunction functionCode b.description none st0.fs
    let st1 : PState := { st0 with fs := fs1 }
    match runAllTests b createdFunctionId st1 with
    | (.ok _, st2) => (loadFunction createdFunctionId st2.fs, st2)
    | (.error e, st2) => (.error e, st2)

/-- A store with nothing persisted. -/
def emptyFS : FS := { cacheFile := .missing, files := [], nextId := 0 }

/-- A fresh pipeline state. -/
def emptyState : PState := { fs := emptyFS, genCount := 0, fixCount := 0 }

/-! ### Concrete instances used by individual results -/

/-- A declared test accepting exactly the source text "good". -/
def c1Test : List Char → Bool := fun code => code == "good".toList

/-- Builder whose first generation ("bad") fails `c1Test` and whose single
repair ("good") passes it. -/
def c1Builder : Builder :=
  { description := "d", testCases := [c1Test],
    genOutput := "bad".toList, fixOutput := fun _ => "good".toList }

/-- Builder with one never-passing test. -/
def c2Builder : Builder :=
  { description := "d", testCases := [fun _ => false],
    genOutput := "g".toList, fixOutput := fun _ => "f".toList }

/-- A store whose single index record is backed by a body. -/
def c3FS : FS :=
  { cacheFile := .content [⟨0, "d"⟩], files := [(0, "old".toList)], nextId := 1 }

/-- A store holding two index records for the same description. -/
def c4FS : FS :=
  { cacheFile := .content [⟨0, "d"⟩, ⟨1, "d"⟩],
    files := [(0, "a".toList), (1, "b".toList)], nextId := 2 }

/-- A store with one entry for "d" and a spare live id, for instantiating
the replace-atomicity statement. -/
def c4FS2 : FS :=
  { cacheFile := .content [⟨0, "d"⟩], files := [(0, "a".toList)], nextId := 1 }

/-- First declared test of the ordering scenario: accepts only "good". -/
def c5t1 : List Char → Bool := fun code => code == "good".toList

/-- Second declared test of the ordering scenario. -/
def c5t2 : List Char → Bool := fun code => code == "good".toList

/-- Builder declaring `c5t1` then `c5t2`; generation yields "bad", every
repair yields "good". -/
def c5Builder : Builder :=
  { description := "d", testCases := [c5t1, c5t2],
    genOutput := "bad".toList, fixOutput := fun _ => "good".toList }

/-- Pipeline state just after the initial generation persisted artifact 0
with body "bad". -/
def c5Start : PState :=
  { fs := { cacheFile := .content [⟨0, "d"⟩], files := [(0, "bad".toList)], nextId := 1 },
    genCount := 1, fixCount := 0 }

/-- The pipeline state in which `c5t1` has just been repaired and passed. -/
def c5Mid : PState := (runTest c5Builder c5t1 0 c5Start).2

/-- A store whose index file holds text that is not valid JSON. -/
def c10FS : FS :=
  { cacheFile := .invalid, files := [(5, "x".toList)], nextId := 7 }

/-- Builder with no declared tests, for the idempotence scenario. -/
def c6Builder : Builder :=
  { description := "d", testCases := [],
    genOutput := "g".toList, fixOutput := fun _ => "f".toList }

/-! ### Unfolding characterizations of the store operations -/

/-- `writeFunction` with a defaulted id: body written over the store, index
extended by one record at the end. -/
theorem writeFunction_none_eq (code : List Char) (d : String) (fs : FS) :
    writeFunction code d none fs =
      (fs.nextId,
        { cacheFile := .content (loadCache fs ++ [⟨fs.nextId, d⟩]),
          files := (fs.nextId, code) :: fs.files,
          nextId := fs.nextId + 1 }) := rfl

/-- `replaceFunction`: the replaced id is filtered out of the index, a
fresh record is pushed, and the new body is persisted. -/
theorem replaceFunction_eq (oldId : Nat) (code : List Char) (d : String) (fs : FS) :
    replaceFunction oldId code d fs =
      (fs.nextId,
        { cacheFile := .content
            ((loadCache fs).filter (fun item => item.id != oldId) ++ [⟨fs.nextId, d⟩]),
          files := (fs.nextId, code) :: fs.files,
          nextId := fs.nextId + 1 }) := rfl

/-- The two intermediate states of `writeFunction` (defaulted id): body
write first, index write second. -/
theorem writeFunctionTrace_none_eq (code : List Char) (d : String) (fs : FS) :
    writeFunctionTrace code d none fs =
      (fs.nextId,
        [{ cacheFile := fs.cacheFile,
           files := (fs.nextId, code) :: fs.files,
           nextId := fs.nextId + 1 },
         { cacheFile := .content (loadCache fs ++ [⟨fs.nextId, d⟩]),
           files := (fs.nextId, code) :: fs.files,
           nextId := fs.nextId + 1 }]) := rfl

/-- The two intermediate states of `writeFunction` with an explicit id. -/
theorem writeFunctionTrace_some_eq (code : List Char) (d : String) (i : Nat) (fs : FS) :
    writeFunctionTrace code d (some i) fs =
      (i,
        [{ cacheFile := fs.cacheFile,
           files := (i, code) :: fs.files,
           nextId := fs.nextId },
         { cacheFile := .content (loadCache fs ++ [⟨i, d⟩]),
           files := (i, code) :: fs.files,
           nextId := fs.nextId }]) := rfl

/-- The two intermediate states of `replaceFunction`: index write first,
body write second. -/
theorem replaceFunctionTrace_eq (oldId : Nat) (code : List Char) (d : String) (fs : FS) :
    replaceFunctionTrace oldId code d fs =
      (fs.nextId,
        [{ cacheFile := .content
             ((loadCache fs).filter (fun item => item.id != oldId) ++ [⟨fs.nextId, d⟩]),
           files := fs.files,
           nextId := fs.nextId + 1 },
         { cacheFile := .content
             ((loadCache fs).filter (fun item => item.id != oldId) ++ [⟨fs.nextId, d⟩]),
           files := (fs.nextId, code) :: fs.files,
           nextId := fs.nextId + 1 }]) := rfl

/-- Reading the index back from a store whose index file was just
written. -/
@[simp] theorem loadCache_content (items : List MetaprogCacheItem)
    (files : List (Nat × List Char)) (n : Nat) :
    loadCache { cacheFile := .content items, files := files, nextId := n } = items := rfl

/-- The empty store has an empty index. -/
@[simp] theorem loadCache_emptyFS : loadCache emptyFS = [] := rfl

/-! ### C10 — graceful degradation of a missing or corrupt index -/

/-- Claim C10: when the index file is missing or fails to parse,
`loadCache` yields the empty index, so `checkCache`, `loadFunctionCache`
and `fetchCode` behave exactly as on an empty store: `none`, `none`, and a
not-found error. -/
theorem loadCache_failure_graceful (fs : FS) (d : String)
    (h : fs.cacheFile = CacheFileState.missing ∨ fs.cacheFile = CacheFileState.invalid) :
    loadCache fs = [] ∧
    checkCache d fs = none ∧
    loadFunctionCache d fs = none ∧
    fetchCode d fs = .error .notFound ∧
    checkCache d fs = checkCache d emptyFS ∧
    loadFunctionCache d fs = loadFunctionCache d emptyFS ∧
    fetchCode d fs = fetchCode d emptyFS := by
  have hl : loadCache fs = [] := by
    obtain h | h := h <;> simp [loadCache, h, CacheFileState.parse]
  refine ⟨hl, ?_, ?_, ?_, ?_, ?_, ?_⟩ <;>
    simp [checkCache, loadFunctionCache, fetchCode, hl]

/-- Instantiation of the C10 result on a store holding a corrupt index
file together with a dangling body file. -/
theorem loadCache_failure_graceful_witness :
    loadCache c10FS = [] ∧
    checkCache "d" c10FS = none ∧
    loadFunctionCache "d" c10FS = none ∧
    fetchCode "d" c10FS = .error .notFound ∧
    checkCache "d" c10FS = checkCache "d" emptyFS ∧
    loadFunctionCache "d" c10FS = loadFunctionCache "d" emptyFS ∧
    fetchCode "d" c10FS = fetchCode "d" emptyFS :=
  loadCache_failure_graceful c10FS "d" (Or.inr rfl)

/-! ### C7 — fetch fails with not-found before a create, succeeds after -/

/-- Claim C7: on a description with no index entry, `fetchCode` fails with
the not-found error and returns no source text; after a successful
`writeFunction` for that description it returns the persisted source. -/
theorem fetchCode_spec (d : String) (code : List Char) (fs : FS)
    (h : loadFunctionCache d fs = none) :
    fetchCode d fs = .error .notFound ∧
    fetchCode d (writeFunction code d none fs).2 = .ok code := by
  have hf : (loadCache fs).find? (fun item => item.description == d) = none := h
  constructor
  · simp [fetchCode, hf]
  · rw [writeFunction_none_eq]
    simp [fetchCode, List.find?_append, hf, lookupBody]

/-- Instantiation of the C7 result on the empty store. -/
theorem fetchCode_spec_witness :
    fetchCode "d" emptyFS = .error .notFound ∧
    fetchCode "d" (writeFunction ("x".toList) "d" none emptyFS).2 = .ok ("x".toList) :=
  fetchCode_spec "d" ("x".toList) emptyFS rfl

/-! ### C9 — duplicate create leaves the new artifact unreachable -/

/-- Claim C9 (implicit): `writeFunction` on a description that already has
an index record appends a second record with the fresh id; `checkCache`
and `loadFunctionCache` still return the earliest record, so the newly
written artifact is unreachable through lookup. -/
theorem writeFunction_duplicate (d : String) (code : List Char) (fs : FS)
    (e : MetaprogCacheItem) (h : loadFunctionCache d fs = some e)
    (hfresh : e.id ≠ fs.nextId) :
    (writeFunction code d none fs).1 = fs.nextId ∧
    loadCache (writeFunction code d none fs).2 = loadCache fs ++ [⟨fs.nextId, d⟩] ∧
    loadFunctionCache d (writeFunction code d none fs).2 = some e ∧
    checkCache d (writeFunction code d none fs).2 = some e.id ∧
    checkCache d (writeFunction code d none fs).2 ≠ some (writeFunction code d none fs).1 := by
  have hf : (loadCache fs).find? (fun item => item.description == d) = some e := h
  rw [writeFunction_none_eq]
  refine ⟨rfl, by simp, ?_, ?_, ?_⟩
  · simp [loadFunctionCache, List.find?_append, hf]
  · simp [checkCache, List.find?_append, hf]
  · simpa [checkCache, List.find?_append, hf] using hfresh

/-- Instantiation of the C9 result: a second create for "d" on a store
already holding record ⟨0, "d"⟩. -/
theorem writeFunction_duplicate_witness :
    (writeFunction ("y".toList) "d" none c4FS2).1 = c4FS2.nextId ∧
    loadCache (writeFunction ("y".toList) "d" none c4FS2).2
      = loadCache c4FS2 ++ [⟨c4FS2.nextId, "d"⟩] ∧
    loadFunctionCache "d" (writeFunction ("y".toList) "d" none c4FS2).2 = some ⟨0, "d"⟩ ∧
    checkCache "d" (writeFunction ("y".toList) "d" none c4FS2).2 = some (MetaprogCacheItem.mk 0 "d").id ∧
    checkCache "d" (writeFunction ("y".toList) "d" none c4FS2).2
      ≠ some (writeFunction ("y".toList) "d" none c4FS2).1 :=
  writeFunction_duplicate "d" ("y".toList) c4FS2 ⟨0, "d"⟩ rfl (by decide)

/-! ### C3 — ordering of index and body writes -/

/-- A cons of a new body file preserves the presence of any body. -/
theorem backed_extend (files : List (Nat × List Char)) (i : Nat) (c : List Char) (j : Nat)
    (h : (files.find? (fun p => p.1 == j)).isSome = true) :
    ((((i, c) :: files)).find? (fun p => p.1 == j)).isSome = true := by
  by_cases hij : ((i : Nat) == j) = true
  · simp [List.find?_cons_of_pos, hij]
  · have hneg : ¬ ((fun (p : Nat × List Char) => p.1 == j) (i, c) = true) := by simpa using hij
    have hkeep : List.find? (fun p => p.1 == j) ((i, c) :: files)
        = List.find? (fun p => p.1 == j) files := List.find?_cons_of_neg files hneg
    rw [hkeep]
    exact h

/-- The body just written is present. -/
theorem backed_self (files : List (Nat × List Char)) (i : Nat) (c : List Char) :
    ((((i, c) :: files)).find? (fun p => p.1 == i)).isSome = true := by
  simp [List.find?_cons_of_pos]

/-- `indexBacked` from an entrywise bound. -/
theorem indexBacked_of_entries (fs' : FS)
    (h : ∀ e ∈ loadCache fs', ((fs'.files.find? (fun p => p.1 == e.id)).isSome) = true) :
    indexBacked fs' = true := by
  simpa [indexBacked, List.all_eq_true, lookupBody] using h

/-- Claim C3, counterexample: on a backed store, `replaceFunction` writes
the index before the body, so its first intermediate state references a
fresh id whose body does not yet exist. -/
theorem replace_order_cex :
    indexBacked c3FS = true ∧
    (replaceFunctionTrace 0 ("new".toList) "d" c3FS).2.map indexBacked = [false, true] := by
  decide

/-- Claim C3, amended: `writeFunction` writes the body before the index,
so every intermediate state of a create keeps each index record backed by
a persisted body; `replaceFunction` writes the index first, so only its
final state is again backed (the intermediate one need not be). -/
theorem store_write_ordering (fs : FS) (code : List Char) (d : String)
    (idOpt : Option Nat) (oldId : Nat) (hb : indexBacked fs = true) :
    (∀ s ∈ (writeFunctionTrace code d idOpt fs).2, indexBacked s = true) ∧
    indexBacked (replaceFunction oldId code d fs).2 = true := by
  have hback : ∀ e ∈ loadCache fs, ((fs.files.find? (fun p => p.1 == e.id)).isSome) = true := by
    simpa [indexBacked, List.all_eq_true, lookupBody] using hb
  constructor
  · have hs1 : ∀ (cf : CacheFileState) (i n : Nat),
        cf = fs.cacheFile →
        indexBacked { cacheFile := cf, files := (i, code) :: fs.files, nextId := n } = true := by
      intro cf i n hcf
      apply indexBacked_of_entries
      intro e he
      subst hcf
      exact backed_extend _ _ _ _ (hback e he)
    have hs2 : ∀ (i n : Nat),
        indexBacked
          { cacheFile := .content (loadCache fs ++ [⟨i, d⟩]),
            files := (i, code) :: fs.files, nextId := n } = true := by
      intro i n
      apply indexBacked_of_entries
      intro e he
      simp only [loadCache_content, List.mem_append, List.mem_singleton] at he
      rcases he with he | he
      · exact backed_extend _ _ _ _ (hback e he)
      · subst he
        exact backed_self _ _ _
    cases idOpt with
    | none =>
      rw [writeFunctionTrace_none_eq]
      intro s hs
      simp only [List.mem_cons, List.mem_singleton, List.not_mem_nil, or_false] at hs
      rcases hs with hs | hs
      · subst hs; exact hs1 _ _ _ rfl
      · subst hs; exact hs2 _ _
    | some i =>
      rw [writeFunctionTrace_some_eq]
      intro s hs
      simp only [List.mem_cons, List.mem_singleton, List.not_mem_nil, or_false] at hs
      rcases hs with hs | hs
      · subst hs; exact hs1 _ _ _ rfl
      · subst hs; exact hs2 _ _
  · rw [replaceFunction_eq]
    apply indexBacked_of_entries
    intro e he
    simp only [loadCache_content, List.mem_append, List.mem_singleton] at he
    rcases he with he | he
    · exact backed_extend _ _ _ _ (hback e (List.mem_of_mem_filter he))
    · subst he
      exact backed_self _ _ _

/-- Instantiation of the C3 amended result on a backed one-entry store. -/
theorem store_write_ordering_witness :
    (∀ s ∈ (writeFunctionTrace ("w".toList) "d" none c3FS).2, indexBacked s = true) ∧
    indexBacked (replaceFunction 0 ("w".toList) "d" c3FS).2 = true :=
  store_write_ordering c3FS ("w".toList) "d" none 0 (by decide)

/-! ### C4 — atomicity of replace -/

/-- Claim C4, counterexample: on a store with two index records for "d",
replacing one of them leaves two records for "d", not exactly one. -/
theorem replace_duplicate_cex :
    entriesFor "d" (replaceFunction 0 ("c".toList) "d" c4FS).2 = 2 ∧
    entriesFor "d" (replaceFunction 0 ("c".toList) "d" c4FS).2 ≠ 1 := by
  decide

/-- Claim C4, amended: after `replaceFunction oldId text d` (with the
fresh id distinct from `oldId`, as nanoid guarantees), `checkCache d`
never returns `oldId`; and when every pre-state record for `d` carried
`oldId`, the index afterwards holds exactly one record for `d`. -/
theorem replaceFunction_atomicity (fs : FS) (oldId : Nat) (code : List Char) (d : String)
    (hfresh : oldId ≠ fs.nextId) :
    checkCache d (replaceFunction oldId code d fs).2 ≠ some oldId ∧
    ((∀ e ∈ loadCache fs, e.description = d → e.id = oldId) →
      entriesFor d (replaceFunction oldId code d fs).2 = 1) := by
  rw [replaceFunction_eq]
  constructor
  · intro hc
    simp only [checkCache, loadCache_content, Option.map_eq_some'] at hc
    obtain ⟨item, hfind, hid⟩ := hc
    have hmem := List.mem_of_find?_eq_some hfind
    rcases List.mem_append.mp hmem with hp | hq
    · have h2 := (List.mem_filter.mp hp).2
      simp only [bne_iff_ne, ne_eq] at h2
      exact h2 hid
    · simp only [List.mem_singleton] at hq
      subst hq
      exact hfresh hid.symm
  · intro hall
    simp only [entriesFor, loadCache_content, List.filter_append, List.length_append]
    have h1 : ((loadCache fs).filter (fun item => item.id != oldId)).filter
        (fun item => item.description == d) = [] := by
      rw [List.filter_eq_nil_iff]
      intro a ha
      have hmem := List.mem_of_mem_filter ha
      have hne := (List.mem_filter.mp ha).2
      simp only [bne_iff_ne, ne_eq] at hne
      simp only [beq_iff_eq]
      intro hdesc
      exact hne (hall a hmem hdesc)
    rw [h1]
    simp

/-- Instantiation of the C4 amended result on a one-entry store. -/
theorem replaceFunction_atomicity_witness :
    checkCache "d" (replaceFunction 0 ("c".toList) "d" c4FS2).2 ≠ some 0 ∧
    entriesFor "d" (replaceFunction 0 ("c".toList) "d" c4FS2).2 = 1 := by
  have h := replaceFunction_atomicity c4FS2 0 ("c".toList) "d" (by decide)
  exact ⟨h.1, h.2 (by decide)⟩

/-! ### C8 — fence stripping -/

/-- `stripAllFuel` does not depend on the fuel once it covers the text. -/
theorem stripAllFuel_fuel (pat : List Char) :
    ∀ n m s, s.length ≤ n → s.length ≤ m →
      stripAllFuel pat n s = stripAllFuel pat m s := by
  intro n
  induction n with
  | zero =>
    intro m s hs _
    have : s = [] := List.eq_nil_of_length_eq_zero (Nat.le_zero.mp hs)
    subst this
    simp [stripAllFuel]
  | succ n ih =>
    intro m s hs hm
    cases s with
    | nil => simp [stripAllFuel]
    | cons c rest =>
      cases m with
      | zero => simp at hm
      | succ m' =>
        simp only [stripAllFuel]
        by_cases hcond : pat ≠ [] ∧ pat.isPrefixOf (c :: rest) = true
        · rw [if_pos hcond, if_pos hcond]
          have hp1 : 0 < pat.length := List.length_pos.mpr hcond.1
          apply ih
          · simp only [List.length_drop, List.length_cons]
            simp only [List.length_cons] at hs
            omega
          · simp only [List.length_drop, List.length_cons]
            simp only [List.length_cons] at hm
            omega
        · rw [if_neg hcond, if_neg hcond]
          simp only [List.length_cons] at hs hm
          exact congrArg (c :: ·) (ih m' rest (by omega) (by omega))

/-- Stripping from the empty text. -/
theorem stripAll_nil (pat : List Char) : stripAll pat [] = [] := rfl

/-- Scanning for a pattern that begins with a backtick walks past any
backtick-free text unchanged. -/
theorem stripAll_append_clean (pat : List Char) (hpat : pat.head? = some '\x60') :
    ∀ (c t : List Char), (∀ ch ∈ c, ch ≠ '\x60') →
      stripAll pat (c ++ t) = c ++ stripAll pat t := by
  intro c
  induction c with
  | nil => intro t _; simp
  | cons ch c' ih =>
    intro t h
    obtain ⟨p0, pt, hp⟩ : ∃ p0 pt, pat = p0 :: pt := by
      cases hpx : pat with
      | nil => rw [hpx] at hpat; simp at hpat
      | cons a b => exact ⟨a, b, rfl⟩
    have hp0 : p0 = '\x60' := by
      rw [hp] at hpat
      simpa using hpat
    have hch : ch ≠ '\x60' := h ch (List.mem_cons_self ch c')
    have hpre : ¬ (pat ≠ [] ∧ pat.isPrefixOf (ch :: (c' ++ t)) = true) := by
      rintro ⟨-, hpre⟩
      rw [hp] at hpre
      simp only [List.isPrefixOf, Bool.and_eq_true, beq_iff_eq] at hpre
      exact hch (hp0 ▸ hpre.1.symm)
    have key : stripAll pat (ch :: (c' ++ t)) = ch :: stripAll pat (c' ++ t) := by
      simp only [stripAll, List.length_cons, stripAllFuel]
      rw [if_neg hpre]
    simp only [List.cons_append]
    rw [key, ih t (fun x hx => h x (List.mem_cons_of_mem ch hx))]

/-- Scanning at an occurrence of the pattern deletes it and resumes after
it. -/
theorem stripAll_head_match (pat rest : List Char) (hne : pat ≠ []) :
    stripAll pat (pat ++ rest) = stripAll pat rest := by
  obtain ⟨p0, pt, hp⟩ : ∃ p0 pt, pat = p0 :: pt := by
    cases hpx : pat with
    | nil => exact absurd hpx hne
    | cons a b => exact ⟨a, b, rfl⟩
  subst hp
  simp only [stripAll, List.cons_append, List.length_cons, stripAllFuel]
  rw [if_pos ⟨List.cons_ne_nil p0 pt,
    List.isPrefixOf_iff_prefix.mpr (List.prefix_append (p0 :: pt) rest)⟩]
  simp only [List.length_cons, List.drop_succ_cons, List.append_eq, List.drop_left]
  exact stripAllFuel_fuel (p0 :: pt) ((pt ++ rest).length) rest.length rest
    (by rw [List.length_append]; exact Nat.le_add_left _ _) (Nat.le_refl _)

/-- Claim C8, counterexample: a fence carrying the language tag `js` is
not stripped to its content — the tag text survives — so post-processing
neither removes every surrounding fence with a language tag nor leaves the
non-fence content unchanged. -/
theorem postProcess_fence_cex :
    postProcessFunctionCode ("```js\nconst a = 1\n```".toList)
      = "js\nconst a = 1\n".toList ∧
    postProcessFunctionCode ("```js\nconst a = 1\n```".toList)
      ≠ "\nconst a = 1\n".toList := by
  exact ⟨by decide, by decide⟩

/-- Claim C8, amended: post-processing deletes every occurrence of the
literal "```typescript" and then every remaining occurrence of "```", so:
backtick-free text is unchanged; a surrounding fence tagged `typescript`
or untagged is removed entirely; but a fence with any other language tag
leaves the tag text behind (and interior backtick fences are deleted as
well, not just surrounding ones). -/
theorem postProcess_amended :
    (∀ body : List Char, (∀ ch ∈ body, ch ≠ '\x60') →
        postProcessFunctionCode body = body) ∧
    (∀ body : List Char, (∀ ch ∈ body, ch ≠ '\x60') →
        postProcessFunctionCode ("```typescript".toList ++ body ++ "```".toList) = body) ∧
    postProcessFunctionCode ("```\nconst b = 2\n```".toList) = "\nconst b = 2\n".toList ∧
    postProcessFunctionCode ("```js\nconst b = 2\n```".toList) = "js\nconst b = 2\n".toList := by
  have hts : ("```typescript".toList : List Char).head? = some '\x60' := by decide
  have hbt : ("```".toList : List Char).head? = some '\x60' := by decide
  have hgen : ∀ body : List Char, (∀ ch ∈ body, ch ≠ '\x60') →
      postProcessFunctionCode body = body := by
    intro body h
    have e1 : stripAll ("```typescript".toList) body = body := by
      have e := stripAll_append_clean _ hts body [] h
      simpa [stripAll_nil] using e
    have e2 : stripAll ("```".toList) body = body := by
      have e := stripAll_append_clean _ hbt body [] h
      simpa [stripAll_nil] using e
    simp only [postProcessFunctionCode, e1, e2]
  refine ⟨hgen, ?_, by decide, by decide⟩
  intro body h
  have e1 : stripAll ("```typescript".toList)
      ("```typescript".toList ++ body ++ "```".toList) = body ++ "```".toList := by
    rw [List.append_assoc, stripAll_head_match _ _ (by decide),
      stripAll_append_clean _ hts body ("```".toList) h,
      show stripAll ("```typescript".toList) ("```".toList) = "```".toList by decide]
  have e2 : stripAll ("```".toList) (body ++ "```".toList) = body := by
    rw [stripAll_append_clean _ hbt body ("```".toList) h,
      show stripAll ("```".toList) ("```".toList) = ([] : List Char) by decide]
    simp
  simp only [postProcessFunctionCode, e1, e2]

/-- Instantiation of the C8 amended result on backtick-free source. -/
theorem postProcess_amended_witness :
    postProcessFunctionCode ("const a = 1".toList) = "const a = 1".toList ∧
    postProcessFunctionCode
      ("```typescript".toList ++ "const a = 1".toList ++ "```".toList)
      = "const a = 1".toList :=
  ⟨postProcess_amended.1 ("const a = 1".toList) (by decide),
   postProcess_amended.2.1 ("const a = 1".toList) (by decide)⟩

/-! ### C1 — build resolves the superseded artifact after a repair -/

/-- Claim C1, evaluated at the failing input: the generated "bad" fails
`c1Test`, the repair persists "good" under the fresh id 1, and the test
loop passes on id 1 — yet `build` then loads `createdFunctionId = 0`, the
id from before the repair (whose body file was never deleted), so it
returns "bad": a callable bound to a superseded artifact id, which still
fails the declared test, while the artifact current in the index (id 1)
holds "good". -/
theorem build_returns_superseded :
    (build c1Builder emptyState).1 = .ok ("bad".toList) ∧
    checkCache "d" (build c1Builder emptyState).2.fs = some 1 ∧
    loadFunction 1 (build c1Builder emptyState).2.fs = .ok ("good".toList) ∧
    c1Test ("bad".toList) = false ∧
    c1Test ("good".toList) = true :=
  ⟨rfl, rfl, rfl, by decide, by decide⟩

/-! ### C2 — the retry bound -/

/-- Claim C2, counterexample: with the default bound and a test that fails
on every run, `build` surfaces the failure after exactly 2 `fixFunction`
invocations, not 3. -/
theorem retry_bound_cex :
    (build c2Builder emptyState).1 = .error .testFailed ∧
    (build c2Builder emptyState).2.fixCount = 2 ∧
    (build c2Builder emptyState).2.fixCount ≠ 3 :=
  ⟨rfl, rfl, by decide⟩

/-- Claim C2, amended: for a first declared test case whose every run
fails, `build` from a fresh store fails after exactly `retries - 1 = 2`
repair attempts under the default `retries = 3`: `retry` attempts the test
3 times in total (the first against the original generation), and
`fixFunction` is invoked exactly twice before the failure is surfaced. -/
theorem build_retry_bound (b : Builder) (t : List Char → Bool)
    (rest : List (List Char → Bool)) (htests : b.testCases = t :: rest)
    (hfail : ∀ code, t code = false) :
    (build b emptyState).1 = .error .testFailed ∧
    (build b emptyState).2.fixCount = 2 := by
  have hbuild : build b emptyState =
      (.error .testFailed,
        { fs := { cacheFile := .content [⟨2, b.description⟩],
                  files := [(2, postProcessFunctionCode (b.fixOutput 1)),
                            (1, postProcessFunctionCode (b.fixOutput 0)),
                            (0, postProcessFunctionCode b.genOutput)],
                  nextId := 3 },
          genCount := 1, fixCount := 2 }) := by
    simp [build, runAllTests, runTestsFrom, runTest, retry, runTestAttempt,
      runTestRepair, fixFunction, fetchCode, loadFunctionCache, checkCache,
      loadCache, CacheFileState.parse, replaceFunction, replaceFunctionTrace,
      writeFunction, writeFunctionTrace, writeIndex, writeBody, allocId,
      lookupBody, loadFunction, generateFunction, emptyState, emptyFS,
      Except.map, htests, hfail]
  rw [hbuild]
  exact ⟨rfl, rfl⟩

/-- Instantiation of the C2 amended result on the always-failing test. -/
theorem build_retry_bound_witness :
    (build c2Builder emptyState).1 = .error .testFailed ∧
    (build c2Builder emptyState).2.fixCount = 2 :=
  build_retry_bound c2Builder (fun _ => false) [] rfl (fun _ => rfl)

/-! ### C5 — later tests run against the repaired artifact -/

/-- If the attempt closure never moves the closure state, a successful
`retry` resolves to an attempt success on the final state. -/
theorem retry_ok_sound {σ α : Type} (fn : σ → Except Err α × σ)
    (before : Err → σ → Except Err σ) (hpure : ∀ s, (fn s).2 = s) :
    ∀ (n : Nat) (s s' : σ) (a : α), retry fn before n s = (.ok a, s') →
      fn s' = (.ok a, s') := by
  intro n
  induction n using Nat.strong_induction_on with
  | _ n ih =>
    match n with
    | 0 =>
      intro s s' a h
      have h0 : fn s = (.ok a, s') := h
      have hs : s' = s := by
        have hp := hpure s
        rw [h0] at hp
        exact hp
      subst hs
      exact h0
    | 1 =>
      intro s s' a h
      have h0 : fn s = (.ok a, s') := h
      have hs : s' = s := by
        have hp := hpure s
        rw [h0] at hp
        exact hp
      subst hs
      exact h0
    | m + 2 =>
      intro s s' a h
      rcases hfn : fn s with ⟨r, s0⟩
      have hs0 : s0 = s := by
        have hp := hpure s
        rw [hfn] at hp
        exact hp
      cases r with
      | ok a0 =>
        simp only [retry, hfn] at h
        have hs : s0 = s' := congrArg Prod.snd h
        have ha : a0 = a := by
          have hfst := congrArg Prod.fst h
          simpa using hfst
        subst hs
        subst hs0
        rw [← ha]
        exact hfn
      | error e =>
        simp only [retry, hfn] at h
        cases hbe : before e s0 with
        | ok s1 =>
          simp only [hbe] at h
          exact ih (m + 1) (by omega) s1 s' a h
        | error e1 =>
          simp only [hbe] at h
          exact absurd (congrArg Prod.fst h) (by simp)

/-- A successful `runTest` resolves to an id whose loaded source passes
the test in the returned state. -/
theorem runTest_ok_sound (b : Builder) (t : List Char → Bool) (fid : Nat)
    (st : PState) (id1 : Nat) (st1 : PState)
    (h : runTest b t fid st = (.ok id1, st1)) :
    ∃ code, loadFunction id1 st1.fs = .ok code ∧ t code = true := by
  have hpure : ∀ s, (runTestAttempt t s).2 = s := by
    intro s
    simp only [runTestAttempt]
    cases hl : loadFunction s.2 s.1.fs with
    | ok c =>
      by_cases htc : t c = true
      · simp [htc]
      · simp [htc]
    | error e => simp
  have h1 : (retry (runTestAttempt t) (runTestRepair b) 3 (st, fid)).1 = .ok id1 :=
    congrArg Prod.fst h
  have h2 : (retry (runTestAttempt t) (runTestRepair b) 3 (st, fid)).2.1 = st1 :=
    congrArg Prod.snd h
  have hfull : retry (runTestAttempt t) (runTestRepair b) 3 (st, fid)
      = (.ok id1, (retry (runTestAttempt t) (runTestRepair b) 3 (st, fid)).2) := by
    rw [← h1]
  have hfn := retry_ok_sound _ _ hpure 3 (st, fid)
    (retry (runTestAttempt t) (runTestRepair b) 3 (st, fid)).2 id1 hfull
  rcases hl : loadFunction (retry (runTestAttempt t) (runTestRepair b) 3 (st, fid)).2.2
      (retry (runTestAttempt t) (runTestRepair b) 3 (st, fid)).2.1.fs with e | c
  · simp only [runTestAttempt, hl] at hfn
    exact absurd (congrArg Prod.fst hfn) (by simp)
  · simp only [runTestAttempt, hl] at hfn
    by_cases htc : t c = true
    · rw [if_pos htc] at hfn
      have h3 : Except.ok (ε := Err) (retry (runTestAttempt t) (runTestRepair b) 3 (st, fid)).2.2
          = .ok id1 := congrArg Prod.fst hfn
      have h3' : (retry (runTestAttempt t) (runTestRepair b) 3 (st, fid)).2.2 = id1 := by
        injection h3
      refine ⟨c, ?_, htc⟩
      rw [← h3', ← h2]
      exact hl
    · rw [if_neg htc] at hfn
      exact absurd (congrArg Prod.fst hfn) (by simp)

/-- Claim C5: once T1's `runTest` resolves (after any repairs) with id
`id1`, the remaining declared tests are evaluated starting from `id1` —
the artifact that most recently passed T1, whose loaded source satisfies
T1 in the post-repair state — not from the id the test loop started
with. -/
theorem test_ordering_post_repair (b : Builder) (t1 t2 : List Char → Bool)
    (fid : Nat) (st : PState) (id1 : Nat) (st1 : PState)
    (h1 : runTest b t1 fid st = (.ok id1, st1)) :
    runTestsFrom b [t1, t2] fid st = runTestsFrom b [t2] id1 st1 ∧
    ∃ code, loadFunction id1 st1.fs = .ok code ∧ t1 code = true := by
  constructor
  · simp only [runTestsFrom, h1]
  · exact runTest_ok_sound b t1 fid st id1 st1 h1

/-- Instantiation of the C5 result: T1 fails on artifact 0 ("bad"), is
repaired to artifact 1 ("good") and passes, and T2 is evaluated against
artifact 1. -/
theorem test_ordering_post_repair_witness :
    runTestsFrom c5Builder [c5t1, c5t2] 0 c5Start = runTestsFrom c5Builder [c5t2] 1 c5Mid ∧
    ∃ code, loadFunction 1 c5Mid.fs = .ok code ∧ c5t1 code = true :=
  test_ordering_post_repair c5Builder c5t1 c5t2 0 c5Start 1 c5Mid rfl

/-! ### C6 — a second build is a pure cache hit -/

/-- Claim C6: on a store with no entry for the description and no declared
tests, `build` performs exactly one generation (the generation counter
rises by one, the repair counter is unchanged) and persists and returns
the generated callable; an immediately following `build` is a pure cache
hit returning the same callable with the state unchanged — so two builds
in succession perform exactly one model call. -/
theorem build_idempotent (b : Builder) (st : PState)
    (hmiss : checkCache b.description st.fs = none) (htests : b.testCases = []) :
    (build b st).1 = .ok (postProcessFunctionCode b.genOutput) ∧
    (build b st).2.genCount = st.genCount + 1 ∧
    (build b st).2.fixCount = st.fixCount ∧
    build b (build b st).2 = build b st := by
  have hf : (loadCache st.fs).find? (fun item => item.description == b.description) = none := by
    simpa [checkCache, Option.map_eq_none'] using hmiss
  have hbuild : build b st =
      (.ok (postProcessFunctionCode b.genOutput),
        { fs := { cacheFile := .content (loadCache st.fs ++ [⟨st.fs.nextId, b.description⟩]),
                  files := (st.fs.nextId, postProcessFunctionCode b.genOutput) :: st.fs.files,
                  nextId := st.fs.nextId + 1 },
          genCount := st.genCount + 1, fixCount := st.fixCount }) := by
    simp [build, hmiss, htests, runAllTests, runTestsFrom, generateFunction,
      writeFunction, writeFunctionTrace, writeBody, writeIndex, allocId,
      loadFunction, lookupBody, Except.map, loadCache, CacheFileState.parse]
  refine ⟨by rw [hbuild], by rw [hbuild], by rw [hbuild], ?_⟩
  rw [hbuild]
  simp [build, checkCache, List.find?_append, hf, loadFunction, lookupBody]

/-- Instantiation of the C6 result on the empty store. -/
theorem build_idempotent_witness :
    (build c6Builder emptyState).1 = .ok (postProcessFunctionCode c6Builder.genOutput) ∧
    (build c6Builder emptyState).2.genCount = emptyState.genCount + 1 ∧
    (build c6Builder emptyState).2.fixCount = emptyState.fixCount ∧
    build c6Builder (build c6Builder emptyState).2 = build c6Builder emptyState :=
  build_idempotent c6Builder emptyState rfl rfl

end Metaprog
